import Mathlib

/-!
Shallow embedding of `src/task.py`, the task-tracker CLI.

The persisted state is the task collection stored in `tasks.json`; we model it
as a `List Task` (the JSON array of task records).  Each store operation is
modelled as a pure function from its arguments and the persisted collection to
an `OpResult`: the printed outcome, the persisted collection afterwards, and
the sequence of storage accesses (`read_tasks` = `Access.load`,
`write_tasks` = `Access.save`) it performed, in order.  Timestamps are opaque
strings; `current_time()` becomes an explicit `now` argument.
-/

namespace TasksCli

/-- A task record, mirroring the JSON object built in `add_task`:
fields `id`, `description`, `status`, `createdAt`, `updatedAt`.
Python ids are unbounded integers, hence `Int`. -/
structure Task where
  id : Int
  description : String
  status : String
  createdAt : String
  updatedAt : String
deriving Repr, DecidableEq

/-- A storage access: `read_tasks` performs a `load`, `write_tasks` a `save`. -/
inductive Access where
  | load : Access
  | save : Access
deriving Repr, DecidableEq

/-- The user-visible outcome of one operation, abstracting the printed
messages of `task.py`: `validationError` for the two early-return validation
messages, `notFoundError` for the not-found message, and one success
constructor per operation carrying what the success message displays
(`listed` carries the tasks the listing loop would display). -/
inductive TaskResult where
  | validationError : TaskResult
  | notFoundError : Int → TaskResult
  | added : Task → TaskResult
  | updated : Task → TaskResult
  | deleted : Task → TaskResult
  | marked : Task → TaskResult
  | listed : List Task → TaskResult
deriving Repr, DecidableEq

/-- Whether a result is one of the two error outcomes. -/
def TaskResult.isError : TaskResult → Bool
  | TaskResult.validationError => true
  | TaskResult.notFoundError _ => true
  | _ => false

/-- Outcome of one operation: printed result, persisted collection after the
call, and the storage accesses performed, in order. -/
structure OpResult where
  result : TaskResult
  tasks : List Task
  accesses : List Access
deriving Repr, DecidableEq

/-- The valid status strings checked by `mark_task`. -/
def valid_statuses : List String := ["todo", "in-progress", "done"]

/-- `generate_id(tasks)`: `max((task["id"] for task in tasks), default=0) + 1`.
Python's `max` with `default=0` returns 0 only on an empty sequence, so the
empty case gives 1 and otherwise the true maximum (which may be negative)
is incremented. -/
def generate_id (tasks : List Task) : Int :=
  match tasks with
  | [] => 1
  | t :: ts => ts.foldl (fun m u => max m u.id) t.id + 1

/-- `add_task(description)`: returns early if the description is falsy (the
empty string); otherwise reads the tasks, appends the new task and writes. -/
def add_task (description : String) (now : String) (tasks : List Task) : OpResult :=
  if description = "" then
    { result := TaskResult.validationError, tasks := tasks, accesses := [] }
  else
    let task : Task :=
      { id := generate_id tasks, description := description, status := "todo",
        createdAt := now, updatedAt := now }
    { result := TaskResult.added task, tasks := tasks ++ [task],
      accesses := [Access.load, Access.save] }

/-- The `for task in tasks:` loop shared by `update_task` and `mark_task`:
apply `f` to the first task whose id matches and stop; `none` when no task
matches.  Returns the rewritten list and the modified task. -/
def modify_first (i : Int) (f : Task → Task) : List Task → Option (List Task × Task)
  | [] => none
  | t :: ts =>
    if t.id = i then
      let t2 := f t
      some (t2 :: ts, t2)
    else
      match modify_first i f ts with
      | none => none
      | some (ts2, u) => some (t :: ts2, u)

/-- `update_task(task_id, description)`: empty description returns early with
no storage access; otherwise load, rewrite the first matching task's
`description` and `updatedAt` and save, or report not-found without saving. -/
def update_task (task_id : Int) (description : String) (now : String)
    (tasks : List Task) : OpResult :=
  if description = "" then
    { result := TaskResult.validationError, tasks := tasks, accesses := [] }
  else
    match modify_first task_id
        (fun t => { t with description := description, updatedAt := now }) tasks with
    | some (ts2, u) =>
      { result := TaskResult.updated u, tasks := ts2,
        accesses := [Access.load, Access.save] }
    | none =>
      { result := TaskResult.notFoundError task_id, tasks := tasks,
        accesses := [Access.load] }

/-- The `enumerate` loop of `delete_task`: remove the first task whose id
matches (`tasks.pop(i)`), returning the remaining list and the removed task. -/
def remove_first (i : Int) : List Task → Option (List Task × Task)
  | [] => none
  | t :: ts =>
    if t.id = i then some (ts, t)
    else
      match remove_first i ts with
      | none => none
      | some (ts2, u) => some (t :: ts2, u)

/-- `delete_task(task_id)`: load, remove the first matching task and save, or
report not-found without saving. -/
def delete_task (task_id : Int) (tasks : List Task) : OpResult :=
  match remove_first task_id tasks with
  | some (ts2, u) =>
    { result := TaskResult.deleted u, tasks := ts2,
      accesses := [Access.load, Access.save] }
  | none =>
    { result := TaskResult.notFoundError task_id, tasks := tasks,
      accesses := [Access.load] }

/-- `mark_task(task_id, status)`: an invalid status returns early with no
storage access; otherwise load, rewrite the first matching task's `status`
and `updatedAt` and save, or report not-found without saving. -/
def mark_task (task_id : Int) (status : String) (now : String)
    (tasks : List Task) : OpResult :=
  if status ∈ valid_statuses then
    match modify_first task_id
        (fun t => { t with status := status, updatedAt := now }) tasks with
    | some (ts2, u) =>
      { result := TaskResult.marked u, tasks := ts2,
        accesses := [Access.load, Access.save] }
    | none =>
      { result := TaskResult.notFoundError task_id, tasks := tasks,
        accesses := [Access.load] }
  else
    { result := TaskResult.validationError, tasks := tasks, accesses := [] }

/-- Python truthiness of `status_filter` in `if status_filter:`: `None` and
the empty string are falsy, every other string truthy. -/
def filter_given : Option String → Bool
  | none => false
  | some s => decide (s ≠ "")

/-- `list_tasks(status_filter=None)`: reads the tasks and displays them,
filtered by status when a truthy filter is given.  The `listed` payload is
the sequence of tasks the display loop iterates over (empty when the early
`return`s for "no tasks" fire).  Never writes. -/
def list_tasks (status_filter : Option String) (tasks : List Task) : OpResult :=
  if tasks = [] then
    { result := TaskResult.listed [], tasks := tasks, accesses := [Access.load] }
  else if filter_given status_filter then
    let f := status_filter.getD ""
    { result := TaskResult.listed (tasks.filter (fun t => t.status = f)),
      tasks := tasks, accesses := [Access.load] }
  else
    { result := TaskResult.listed tasks, tasks := tasks, accesses := [Access.load] }

/-- The persisted collection after a sequence of `list_tasks` invocations,
one per filter in the list. -/
def list_many (filters : List (Option String)) (tasks : List Task) : List Task :=
  filters.foldl (fun s f => (list_tasks f s).tasks) tasks

/-- The persisted collection after a sequence of `add_task` invocations, one
per description. -/
def add_many (descs : List String) (now : String) (tasks : List Task) : List Task :=
  descs.foldl (fun s d => (add_task d now s).tasks) tasks

/-- The ids of the tasks actually created along a sequence of `add_task`
calls (a rejected description creates no task and assigns no id). -/
def assigned_ids (descs : List String) (now : String) (tasks : List Task) : List Int :=
  match descs with
  | [] => []
  | d :: ds =>
    match (add_task d now tasks).result with
    | TaskResult.added t => t.id :: assigned_ids ds now (add_task d now tasks).tasks
    | _ => assigned_ids ds now (add_task d now tasks).tasks

/-- What `main` prints besides a store operation's own output: the usage help
(empty argument list), the invalid-command message (unknown verb or missing
arguments), or the id-must-be-an-integer message (`ValueError` from `int`). -/
inductive MainOut where
  | usage : MainOut
  | invalidCommand : MainOut
  | idNotInteger : MainOut
  | fromOp : TaskResult → MainOut
deriving Repr, DecidableEq

/-- Outcome of one `main` invocation: what was printed, the persisted
collection afterwards, and the storage accesses performed. -/
structure MainResult where
  out : MainOut
  tasks : List Task
  accesses : List Access
deriving Repr, DecidableEq

/-- Lift an `OpResult` into a `MainResult`. -/
def MainResult.ofOp (r : OpResult) : MainResult :=
  { out := MainOut.fromOp r.result, tasks := r.tasks, accesses := r.accesses }

/-- `main()`: `args` is `sys.argv[1:]` (verb and arguments, the program name
dropped).  Mirrors the `elif` chain: each branch checks the verb and the
argument count, coerces the id token with `int` (modelled by `String.toInt?`,
`none` standing for `ValueError`), joins description tokens with spaces, and
dispatches to the store operation. -/
def main_dispatch (args : List String) (now : String) (tasks : List Task) : MainResult :=
  match args with
  | [] => { out := MainOut.usage, tasks := tasks, accesses := [] }
  | command :: rest =>
    if command = "add" ∧ 1 ≤ rest.length then
      MainResult.ofOp (add_task (String.intercalate (" ") rest) now tasks)
    else if command = "update" ∧ 2 ≤ rest.length then
      match (rest.headD ("")).toInt? with
      | none => { out := MainOut.idNotInteger, tasks := tasks, accesses := [] }
      | some i =>
        MainResult.ofOp
          (update_task i (String.intercalate (" ") (rest.drop 1)) now tasks)
    else if command = "delete" ∧ 1 ≤ rest.length then
      match (rest.headD ("")).toInt? with
      | none => { out := MainOut.idNotInteger, tasks := tasks, accesses := [] }
      | some i => MainResult.ofOp (delete_task i tasks)
    else if command = "mark" ∧ 2 ≤ rest.length then
      match (rest.headD ("")).toInt? with
      | none => { out := MainOut.idNotInteger, tasks := tasks, accesses := [] }
      | some i => MainResult.ofOp (mark_task i (rest.getD 1 ("")) now tasks)
    else if command = "list" then
      MainResult.ofOp (list_tasks rest.head? tasks)
    else
      { out := MainOut.invalidCommand, tasks := tasks, accesses := [] }

/-- No mutating operation persists anything when its validation or lookup
fails: whenever `add_task`, `update_task`, `delete_task` or `mark_task`
reports an error, the persisted collection is unchanged and no save was
issued. -/
def no_save_on_failure : Prop :=
  ∀ (d now s : String) (i : Int) (tasks : List Task),
    ((add_task d now tasks).result.isError = true →
      (add_task d now tasks).tasks = tasks ∧
      Access.save ∉ (add_task d now tasks).accesses) ∧
    ((update_task i d now tasks).result.isError = true →
      (update_task i d now tasks).tasks = tasks ∧
      Access.save ∉ (update_task i d now tasks).accesses) ∧
    ((delete_task i tasks).result.isError = true →
      (delete_task i tasks).tasks = tasks ∧
      Access.save ∉ (delete_task i tasks).accesses) ∧
    ((mark_task i s now tasks).result.isError = true →
      (mark_task i s now tasks).tasks = tasks ∧
      Access.save ∉ (mark_task i s now tasks).accesses)

/-- A concrete task used in counterexamples and witnesses: as if persisted in
`tasks.json` with the given id and status. -/
def sample_task (i : Int) (s : String) : Task :=
  { id := i, description := "d", status := s, createdAt := "t0", updatedAt := "t0" }

/-! ### Helper lemmas about `generate_id` -/

/-- The running maximum in `generate_id` never drops below its seed. -/
theorem le_foldl_max (init : Int) (l : List Task) :
    init ≤ l.foldl (fun m u => max m u.id) init := by
  induction l generalizing init with
  | nil => exact le_refl _
  | cons t ts ih => exact le_trans (le_max_left _ _) (ih _)

/-- The running maximum in `generate_id` bounds every member's id. -/
theorem mem_le_foldl_max (init : Int) {l : List Task} {t : Task} (h : t ∈ l) :
    t.id ≤ l.foldl (fun m u => max m u.id) init := by
  induction l generalizing init with
  | nil => cases h
  | cons u us ih =>
    cases h with
    | head => exact le_trans (le_max_right _ _) (le_foldl_max _ _)
    | tail _ h2 => exact ih _ h2

/-- `generate_id` is strictly above every id already in the collection. -/
theorem generate_id_gt {tasks : List Task} {t : Task} (h : t ∈ tasks) :
    t.id < generate_id tasks := by
  cases tasks with
  | nil => cases h
  | cons u us =>
    have h2 : t.id ≤ us.foldl (fun m v => max m v.id) u.id := by
      cases h with
      | head => exact le_foldl_max _ _
      | tail _ h3 => exact mem_le_foldl_max _ h3
    have h4 : generate_id (u :: us) = us.foldl (fun m v => max m v.id) u.id + 1 := rfl
    omega

/-- The running maximum is either the seed or the id of some member. -/
theorem foldl_max_mem (init : Int) (l : List Task) :
    l.foldl (fun m u => max m u.id) init = init ∨
      ∃ t ∈ l, l.foldl (fun m u => max m u.id) init = t.id := by
  induction l generalizing init with
  | nil => exact Or.inl rfl
  | cons u us ih =>
    rcases ih (max init u.id) with h | h
    · rcases max_choice init u.id with h2 | h2
      · exact Or.inl (by simpa [h2] using h)
      · exact Or.inr ⟨u, List.mem_cons_self _ _, by simpa [h2] using h⟩
    · rcases h with ⟨t, ht, h3⟩
      exact Or.inr ⟨t, List.mem_cons_of_mem _ ht, h3⟩

/-- On a non-empty collection, `generate_id` is one more than the id of a
member which bounds every other id: `1 + max(existing ids)`. -/
theorem generate_id_eq_max_add_one {tasks : List Task} (h : tasks ≠ []) :
    ∃ t ∈ tasks, generate_id tasks = t.id + 1 ∧ ∀ u ∈ tasks, u.id ≤ t.id := by
  cases tasks with
  | nil => exact absurd rfl h
  | cons u us =>
    have hub : ∀ v ∈ u :: us, v.id ≤ us.foldl (fun m w => max m w.id) u.id := by
      intro v hv
      cases hv with
      | head => exact le_foldl_max _ _
      | tail _ h2 => exact mem_le_foldl_max _ h2
    rcases foldl_max_mem u.id us with h1 | h1
    · refine ⟨u, List.mem_cons_self _ _, ?_, ?_⟩
      · simp [generate_id, h1]
      · intro v hv
        have := hub v hv
        omega
    · rcases h1 with ⟨t, ht, h2⟩
      refine ⟨t, List.mem_cons_of_mem _ ht, ?_, ?_⟩
      · simp [generate_id, h2]
      · intro v hv
        have := hub v hv
        omega

/-- Appending the freshly generated task bumps `generate_id` by exactly one. -/
theorem generate_id_append {tasks : List Task} {t : Task}
    (ht : t.id = generate_id tasks) :
    generate_id (tasks ++ [t]) = generate_id tasks + 1 := by
  cases tasks with
  | nil => simp [generate_id] at ht ⊢; omega
  | cons u us =>
    have h1 : (us ++ [t]).foldl (fun m w => max m w.id) u.id =
        max (us.foldl (fun m w => max m w.id) u.id) t.id := by
      rw [List.foldl_append]
      rfl
    simp only [generate_id, List.cons_append, h1] at ht ⊢
    omega

/-! ### Helper lemmas about the matching loops -/

/-- The `for` loops find nothing when no task carries the id. -/
theorem modify_first_eq_none (i : Int) (f : Task → Task) {tasks : List Task}
    (h : ∀ t ∈ tasks, t.id ≠ i) : modify_first i f tasks = none := by
  induction tasks with
  | nil => rfl
  | cons u us ih =>
    have h1 : u.id ≠ i := h u (List.mem_cons_self _ _)
    have h2 : modify_first i f us = none :=
      ih (fun t ht => h t (List.mem_cons_of_mem _ ht))
    simp [modify_first, h1, h2]

/-- The delete loop finds nothing when no task carries the id. -/
theorem remove_first_eq_none (i : Int) {tasks : List Task}
    (h : ∀ t ∈ tasks, t.id ≠ i) : remove_first i tasks = none := by
  induction tasks with
  | nil => rfl
  | cons u us ih =>
    have h1 : u.id ≠ i := h u (List.mem_cons_self _ _)
    have h2 : remove_first i us = none :=
      ih (fun t ht => h t (List.mem_cons_of_mem _ ht))
    simp [remove_first, h1, h2]

/-- Any collection containing the id splits around its first occurrence. -/
theorem exists_first_match {tasks : List Task} {i : Int}
    (h : ∃ t ∈ tasks, t.id = i) :
    ∃ pre t post, tasks = pre ++ t :: post ∧ (∀ u ∈ pre, u.id ≠ i) ∧ t.id = i := by
  induction tasks with
  | nil => rcases h with ⟨t, ht, _⟩; cases ht
  | cons u us ih =>
    by_cases hu : u.id = i
    · exact ⟨[], u, us, rfl, fun v hv => absurd hv (List.not_mem_nil v), hu⟩
    · have h2 : ∃ t ∈ us, t.id = i := by
        rcases h with ⟨t, ht, hti⟩
        cases ht with
        | head => exact absurd hti hu
        | tail _ h3 => exact ⟨t, h3, hti⟩
      rcases ih h2 with ⟨pre, t, post, heq, hpre, hti⟩
      refine ⟨u :: pre, t, post, by rw [heq, List.cons_append], ?_, hti⟩
      intro v hv
      cases hv with
      | head => exact hu
      | tail _ h4 => exact hpre v h4

/-- The modify loop rewrites exactly the first matching task. -/
theorem modify_first_split (i : Int) (f : Task → Task) (pre post : List Task)
    (t : Task) (hpre : ∀ u ∈ pre, u.id ≠ i) (ht : t.id = i) :
    modify_first i f (pre ++ t :: post) = some (pre ++ f t :: post, f t) := by
  induction pre with
  | nil => simp [modify_first, ht]
  | cons u us ih =>
    have h1 : u.id ≠ i := hpre u (List.mem_cons_self _ _)
    have h2 := ih (fun v hv => hpre v (List.mem_cons_of_mem _ hv))
    simp [modify_first, h1, h2]

/-- The delete loop removes exactly the first matching task. -/
theorem remove_first_split (i : Int) (pre post : List Task) (t : Task)
    (hpre : ∀ u ∈ pre, u.id ≠ i) (ht : t.id = i) :
    remove_first i (pre ++ t :: post) = some (pre ++ post, t) := by
  induction pre with
  | nil => simp [remove_first, ht]
  | cons u us ih =>
    have h1 : u.id ≠ i := hpre u (List.mem_cons_self _ _)
    have h2 := ih (fun v hv => hpre v (List.mem_cons_of_mem _ hv))
    simp [remove_first, h1, h2]

/-- `list_tasks` never changes the persisted collection and never saves. -/
theorem list_tasks_pure (f : Option String) (tasks : List Task) :
    (list_tasks f tasks).tasks = tasks ∧
      (list_tasks f tasks).accesses = [Access.load] := by
  by_cases h : tasks = []
  · simp [list_tasks, h]
  · by_cases h2 : filter_given f = true <;> simp [list_tasks, h, h2]

/-! ### Helper lemmas about sequences of `add_task` calls -/

/-- A non-empty description makes `add_task` append the freshly built task. -/
theorem add_task_success {d : String} (now : String) (tasks : List Task)
    (hd : d ≠ "") :
    add_task d now tasks =
      { result := TaskResult.added
          { id := generate_id tasks, description := d, status := "todo",
            createdAt := now, updatedAt := now },
        tasks := tasks ++
          [{ id := generate_id tasks, description := d, status := "todo",
             createdAt := now, updatedAt := now }],
        accesses := [Access.load, Access.save] } := by
  simp [add_task, hd]

/-- An empty description makes `add_task` reject without touching storage. -/
theorem add_task_empty (now : String) (tasks : List Task) :
    add_task ("") now tasks =
      { result := TaskResult.validationError, tasks := tasks, accesses := [] } := rfl

/-- Unfolding `add_many` one call at a time. -/
theorem add_many_cons (d : String) (ds : List String) (now : String)
    (tasks : List Task) :
    add_many (d :: ds) now tasks = add_many ds now (add_task d now tasks).tasks := rfl

/-- Unfolding `assigned_ids` when the first add succeeds. -/
theorem assigned_ids_cons_success {d : String} (ds : List String) (now : String)
    (tasks : List Task) (hd : d ≠ "") :
    assigned_ids (d :: ds) now tasks =
      generate_id tasks ::
        assigned_ids ds now
          (tasks ++
            [{ id := generate_id tasks, description := d, status := "todo",
               createdAt := now, updatedAt := now }]) := by
  rw [assigned_ids, add_task_success now tasks hd]

/-- Unfolding `assigned_ids` when the first add is rejected. -/
theorem assigned_ids_cons_empty (ds : List String) (now : String)
    (tasks : List Task) :
    assigned_ids (("") :: ds) now tasks = assigned_ids ds now tasks := rfl

/-- Every id assigned from a given collection is at least that collection's
next id. -/
theorem assigned_ids_lb (descs : List String) (now : String) (tasks : List Task) :
    ∀ x ∈ assigned_ids descs now tasks, generate_id tasks ≤ x := by
  induction descs generalizing tasks with
  | nil => intro x hx; cases hx
  | cons d ds ih =>
    intro x hx
    by_cases hd : d = ""
    · rw [hd, assigned_ids_cons_empty] at hx
      exact ih tasks x hx
    · rw [assigned_ids_cons_success ds now tasks hd] at hx
      cases hx with
      | head => exact le_refl _
      | tail _ h2 =>
        have h3 := ih _ x h2
        have h4 : generate_id
            (tasks ++
              [{ id := generate_id tasks, description := d, status := "todo",
                 createdAt := now, updatedAt := now }]) = generate_id tasks + 1 :=
          generate_id_append rfl
        omega

/-- The ids assigned along any sequence of adds are strictly increasing. -/
theorem assigned_ids_sorted (descs : List String) (now : String)
    (tasks : List Task) :
    List.Pairwise (fun a b => a < b) (assigned_ids descs now tasks) := by
  induction descs generalizing tasks with
  | nil => exact List.Pairwise.nil
  | cons d ds ih =>
    by_cases hd : d = ""
    · rw [hd, assigned_ids_cons_empty]
      exact ih tasks
    · rw [assigned_ids_cons_success ds now tasks hd]
      refine List.Pairwise.cons ?_ (ih _)
      intro x hx
      have h1 := assigned_ids_lb ds now _ x hx
      have h2 : generate_id
          (tasks ++
            [{ id := generate_id tasks, description := d, status := "todo",
               createdAt := now, updatedAt := now }]) = generate_id tasks + 1 :=
        generate_id_append rfl
      omega

/-- With only non-empty descriptions, every add assigns an id. -/
theorem assigned_ids_length (descs : List String) (now : String)
    (tasks : List Task) (h : ∀ d ∈ descs, d ≠ "") :
    (assigned_ids descs now tasks).length = descs.length := by
  induction descs generalizing tasks with
  | nil => rfl
  | cons d ds ih =>
    have hd : d ≠ "" := h d (List.mem_cons_self _ _)
    rw [assigned_ids_cons_success ds now tasks hd]
    simp only [List.length_cons]
    rw [ih _ (fun e he => h e (List.mem_cons_of_mem _ he))]

/-- Appending a task with the freshly generated id keeps ids unique. -/
theorem map_id_append_nodup {tasks : List Task}
    (h : (tasks.map Task.id).Nodup) {t : Task} (ht : t.id = generate_id tasks) :
    ((tasks ++ [t]).map Task.id).Nodup := by
  rw [List.map_append]
  refine List.Nodup.append h (List.nodup_singleton _) ?_
  intro a ha hb
  rcases List.mem_map.mp ha with ⟨u, hu, hua⟩
  have h2 : a = t.id := by simpa using hb
  have h3 := generate_id_gt hu
  rw [hua, h2, ht] at h3
  exact lt_irrefl _ h3

/-- A sequence of adds preserves uniqueness of the ids. -/
theorem add_many_nodup (descs : List String) (now : String) (tasks : List Task)
    (h : (tasks.map Task.id).Nodup) :
    ((add_many descs now tasks).map Task.id).Nodup := by
  induction descs generalizing tasks with
  | nil => exact h
  | cons d ds ih =>
    rw [add_many_cons]
    by_cases hd : d = ""
    · rw [hd, add_task_empty]
      exact ih tasks h
    · rw [add_task_success now tasks hd]
      exact ih _ (map_id_append_nodup h rfl)

/-- Whenever any mutating operation reports an error, it has not saved and
the persisted collection is unchanged. -/
theorem no_save_on_failure_holds : no_save_on_failure := by
  intro d now s i tasks
  refine ⟨?_, ?_, ?_, ?_⟩
  · intro herr
    by_cases hd : d = ""
    · subst hd
      exact ⟨rfl, by simp [add_task_empty]⟩
    · rw [add_task_success now tasks hd] at herr
      simp [TaskResult.isError] at herr
  · intro herr
    by_cases hd : d = ""
    · subst hd
      refine ⟨?_, ?_⟩ <;> simp [update_task]
    · rcases hmod : modify_first i
          (fun t => { t with description := d, updatedAt := now }) tasks with _ | ⟨ts2, u⟩
      · refine ⟨?_, ?_⟩ <;> simp [update_task, hd, hmod]
      · have h2 : (update_task i d now tasks).result = TaskResult.updated u := by
          simp [update_task, hd, hmod]
        rw [h2] at herr
        simp [TaskResult.isError] at herr
  · intro herr
    rcases hrem : remove_first i tasks with _ | ⟨ts2, u⟩
    · refine ⟨?_, ?_⟩ <;> simp [delete_task, hrem]
    · have h2 : (delete_task i tasks).result = TaskResult.deleted u := by
        simp [delete_task, hrem]
      rw [h2] at herr
      simp [TaskResult.isError] at herr
  · intro herr
    by_cases hs : s ∈ valid_statuses
    · rcases hmod : modify_first i
          (fun t => { t with status := s, updatedAt := now }) tasks with _ | ⟨ts2, u⟩
      · refine ⟨?_, ?_⟩ <;> simp [mark_task, hs, hmod]
      · have h2 : (mark_task i s now tasks).result = TaskResult.marked u := by
          simp [mark_task, hs, hmod]
        rw [h2] at herr
        simp [TaskResult.isError] at herr
    · refine ⟨?_, ?_⟩ <;> simp [mark_task, hs]

/-! ### Claim theorems -/

/-- C1 (counterexample): the description consisting of a single space is
whitespace-only, yet `add_task` does not reject it — it loads and saves and
reports success — contradicting the claim that every empty-or-whitespace-only
description fails with a validation error before any storage access. -/
theorem C1_counterexample :
    (" ").toList.all Char.isWhitespace = true ∧
    (add_task (" ") ("t1") []).result ≠ TaskResult.validationError ∧
    (add_task (" ") ("t1") []).accesses = [Access.load, Access.save] := by
  decide

/-- C1 (amended): `add_task` fails with the validation error — no load, no
save, persisted collection untouched — exactly when the description is the
empty string; every non-empty description, whitespace-only ones included, is
accepted and storage is then both loaded and saved. -/
theorem C1_add_rejects_only_empty (tasks : List Task) (now d : String)
    (hd : d ≠ "") :
    (add_task ("") now tasks).result = TaskResult.validationError ∧
    (add_task ("") now tasks).accesses = [] ∧
    (add_task ("") now tasks).tasks = tasks ∧
    (add_task d now tasks).result ≠ TaskResult.validationError ∧
    (add_task d now tasks).accesses = [Access.load, Access.save] := by
  refine ⟨rfl, rfl, rfl, ?_, ?_⟩
  · rw [add_task_success now tasks hd]
    simp
  · rw [add_task_success now tasks hd]

/-- C1 witness: the amended claim at the empty collection, with the
single-space description as the accepted non-empty one. -/
theorem C1_add_rejects_only_empty_witness :
    (add_task ("") ("t1") []).result = TaskResult.validationError ∧
    (add_task ("") ("t1") []).accesses = [] ∧
    (add_task ("") ("t1") []).tasks = [] ∧
    (add_task (" ") ("t1") []).result ≠ TaskResult.validationError ∧
    (add_task (" ") ("t1") []).accesses = [Access.load, Access.save] :=
  C1_add_rejects_only_empty [] ("t1") (" ") (by decide)

/-- C2 (counterexample): in the collection with ids 1 and 5, the task with
id 5 holds the maximum id; after deleting it the next add assigns id 2, not
5 — deleting the task holding the maximum id does not in general make the
next add assign that same id again. -/
theorem C2_counterexample :
    (∀ u ∈ [sample_task 1 "todo", sample_task 5 "todo"],
      u.id ≤ (sample_task 5 "todo").id) ∧
    (delete_task 5 [sample_task 1 "todo", sample_task 5 "todo"]).result =
      TaskResult.deleted (sample_task 5 "todo") ∧
    (add_task ("C") ("t1")
        (delete_task 5 [sample_task 1 "todo", sample_task 5 "todo"]).tasks).result =
      TaskResult.added
        { id := 2, description := "C", status := "todo",
          createdAt := "t1", updatedAt := "t1" } ∧
    (2 : Int) ≠ 5 := by
  decide

/-- C2 (amended): `generate_id` returns 1 on the empty collection and
`1 + max(existing ids)` otherwise; after a deletion the next add therefore
assigns `1 + max(remaining ids)`, which re-assigns the deleted maximum id
exactly when the remaining maximum is one less, as with consecutive ids —
after add A, add B, delete 2, the next add reuses id 2 — and in the sequence
add A, add B, delete 1, add C the task C receives id 3. -/
theorem C2_next_id (tasks : List Task) (h : tasks ≠ []) :
    generate_id ([] : List Task) = 1 ∧
    (∃ t ∈ tasks, generate_id tasks = t.id + 1 ∧ ∀ u ∈ tasks, u.id ≤ t.id) ∧
    (add_task ("C") ("t2")
        (delete_task 2 (add_many [("A"), ("B")] ("t1") [])).tasks).result =
      TaskResult.added
        { id := 2, description := "C", status := "todo",
          createdAt := "t2", updatedAt := "t2" } ∧
    (add_task ("C") ("t2")
        (delete_task 1 (add_many [("A"), ("B")] ("t1") [])).tasks).result =
      TaskResult.added
        { id := 3, description := "C", status := "todo",
          createdAt := "t2", updatedAt := "t2" } :=
  ⟨rfl, generate_id_eq_max_add_one h, by decide, by decide⟩

/-- C2 witness: the amended claim at the one-task collection with id 1. -/
theorem C2_next_id_witness :
    generate_id ([] : List Task) = 1 ∧
    (∃ t ∈ [sample_task 1 "todo"],
      generate_id [sample_task 1 "todo"] = t.id + 1 ∧
      ∀ u ∈ [sample_task 1 "todo"], u.id ≤ t.id) ∧
    (add_task ("C") ("t2")
        (delete_task 2 (add_many [("A"), ("B")] ("t1") [])).tasks).result =
      TaskResult.added
        { id := 2, description := "C", status := "todo",
          createdAt := "t2", updatedAt := "t2" } ∧
    (add_task ("C") ("t2")
        (delete_task 1 (add_many [("A"), ("B")] ("t1") [])).tasks).result =
      TaskResult.added
        { id := 3, description := "C", status := "todo",
          createdAt := "t2", updatedAt := "t2" } :=
  C2_next_id [sample_task 1 "todo"] (by decide)

/-- C3: on an id absent from the collection — with a non-empty description
and a valid status, so that the validation preceding the lookup passes —
`update_task`, `delete_task` and `mark_task` all report the not-found error,
only load and never save, and leave the persisted collection exactly
unchanged; and in general no mutating operation saves or changes the
persisted collection when it reports an error. -/
theorem C3_not_found_frame (tasks : List Task) (i : Int) (d s now : String)
    (hid : ∀ t ∈ tasks, t.id ≠ i) (hd : d ≠ "") (hs : s ∈ valid_statuses) :
    ((update_task i d now tasks).result = TaskResult.notFoundError i ∧
      (update_task i d now tasks).tasks = tasks ∧
      (update_task i d now tasks).accesses = [Access.load]) ∧
    ((delete_task i tasks).result = TaskResult.notFoundError i ∧
      (delete_task i tasks).tasks = tasks ∧
      (delete_task i tasks).accesses = [Access.load]) ∧
    ((mark_task i s now tasks).result = TaskResult.notFoundError i ∧
      (mark_task i s now tasks).tasks = tasks ∧
      (mark_task i s now tasks).accesses = [Access.load]) ∧
    no_save_on_failure := by
  have hm := modify_first_eq_none i
    (fun t => { t with description := d, updatedAt := now }) hid
  have hm2 := modify_first_eq_none i
    (fun t => { t with status := s, updatedAt := now }) hid
  have hr := remove_first_eq_none i hid
  refine ⟨?_, ?_, ?_, no_save_on_failure_holds⟩
  · refine ⟨?_, ?_, ?_⟩ <;> simp [update_task, hd, hm]
  · refine ⟨?_, ?_, ?_⟩ <;> simp [delete_task, hr]
  · refine ⟨?_, ?_, ?_⟩ <;> simp [mark_task, hs, hm2]

/-- C3 witness: the three operations at id 1 on the empty collection. -/
theorem C3_not_found_frame_witness :
    ((update_task 1 ("x") ("t1") []).result = TaskResult.notFoundError 1 ∧
      (update_task 1 ("x") ("t1") []).tasks = [] ∧
      (update_task 1 ("x") ("t1") []).accesses = [Access.load]) ∧
    ((delete_task 1 []).result = TaskResult.notFoundError 1 ∧
      (delete_task 1 []).tasks = [] ∧
      (delete_task 1 []).accesses = [Access.load]) ∧
    ((mark_task 1 ("done") ("t1") []).result = TaskResult.notFoundError 1 ∧
      (mark_task 1 ("done") ("t1") []).tasks = [] ∧
      (mark_task 1 ("done") ("t1") []).accesses = [Access.load]) ∧
    no_save_on_failure :=
  C3_not_found_frame [] 1 ("x") ("done") ("t1") (by decide) (by decide) (by decide)

/-- C4: adding a non-empty description appends exactly one task at the end
of the collection, with id `generate_id` of the prior collection, status
todo, and equal creation and update timestamps; the unfiltered listing of
the new collection includes it. -/
theorem C4_add_appends (tasks : List Task) (d now : String) (hd : d ≠ "") :
    ∃ t : Task,
      (add_task d now tasks).result = TaskResult.added t ∧
      (add_task d now tasks).tasks = tasks ++ [t] ∧
      t.id = generate_id tasks ∧ t.description = d ∧ t.status = "todo" ∧
      t.createdAt = t.updatedAt ∧
      ∃ l, (list_tasks none (add_task d now tasks).tasks).result =
        TaskResult.listed l ∧ t ∈ l := by
  refine ⟨{ id := generate_id tasks, description := d, status := "todo",
            createdAt := now, updatedAt := now }, ?_, ?_, rfl, rfl, rfl, rfl, ?_⟩
  · rw [add_task_success now tasks hd]
  · rw [add_task_success now tasks hd]
  · rw [add_task_success now tasks hd]
    refine ⟨tasks ++
      [{ id := generate_id tasks, description := d, status := "todo",
         createdAt := now, updatedAt := now }], ?_, by simp⟩
    have hne : tasks ++
        [{ id := generate_id tasks, description := d, status := "todo",
           createdAt := now, updatedAt := now }] ≠ [] := by simp
    simp [list_tasks, hne, filter_given]

/-- C4 witness: adding to the empty collection. -/
theorem C4_add_appends_witness :
    ∃ t : Task,
      (add_task ("Buy milk") ("t1") []).result = TaskResult.added t ∧
      (add_task ("Buy milk") ("t1") []).tasks = [] ++ [t] ∧
      t.id = generate_id [] ∧ t.description = ("Buy milk") ∧ t.status = "todo" ∧
      t.createdAt = t.updatedAt ∧
      ∃ l, (list_tasks none (add_task ("Buy milk") ("t1") []).tasks).result =
        TaskResult.listed l ∧ t ∈ l :=
  C4_add_appends [] ("Buy milk") ("t1") (by decide)

/-- C5: an invalid status makes `mark_task` fail with the validation error
with no storage access at all; with a valid status and an id present in the
collection it rewrites exactly the first matching task — replacing its
status and refreshing its `updatedAt`, everything else including the rest of
the collection and its order unchanged — saves, and returns the updated
task. -/
theorem C5_mark_status (tasks : List Task) (i : Int) (good bad now : String)
    (hbad : bad ∉ valid_statuses) (hgood : good ∈ valid_statuses)
    (hmem : ∃ t ∈ tasks, t.id = i) :
    ((mark_task i bad now tasks).result = TaskResult.validationError ∧
      (mark_task i bad now tasks).accesses = [] ∧
      (mark_task i bad now tasks).tasks = tasks) ∧
    ∃ pre t post,
      tasks = pre ++ t :: post ∧ (∀ u ∈ pre, u.id ≠ i) ∧ t.id = i ∧
      (mark_task i good now tasks).result =
        TaskResult.marked { t with status := good, updatedAt := now } ∧
      (mark_task i good now tasks).tasks =
        pre ++ { t with status := good, updatedAt := now } :: post ∧
      (mark_task i good now tasks).accesses = [Access.load, Access.save] := by
  constructor
  · refine ⟨?_, ?_, ?_⟩ <;> simp [mark_task, hbad]
  · rcases exists_first_match hmem with ⟨pre, t, post, heq, hpre, hti⟩
    subst heq
    have hm := modify_first_split i
      (fun u => { u with status := good, updatedAt := now }) pre post t hpre hti
    exact ⟨pre, t, post, rfl, hpre, hti,
      by simp [mark_task, hgood, hm],
      by simp [mark_task, hgood, hm],
      by simp [mark_task, hgood, hm]⟩

/-- C5 witness: marking the only task of a one-task collection as done,
with the rejected status token spelled bogus. -/
theorem C5_mark_status_witness :
    ((mark_task 1 ("bogus") ("t2") [sample_task 1 "todo"]).result =
        TaskResult.validationError ∧
      (mark_task 1 ("bogus") ("t2") [sample_task 1 "todo"]).accesses = [] ∧
      (mark_task 1 ("bogus") ("t2") [sample_task 1 "todo"]).tasks =
        [sample_task 1 "todo"]) ∧
    ∃ pre t post,
      [sample_task 1 "todo"] = pre ++ t :: post ∧ (∀ u ∈ pre, u.id ≠ 1) ∧
      t.id = 1 ∧
      (mark_task 1 ("done") ("t2") [sample_task 1 "todo"]).result =
        TaskResult.marked { t with status := ("done"), updatedAt := ("t2") } ∧
      (mark_task 1 ("done") ("t2") [sample_task 1 "todo"]).tasks =
        pre ++ { t with status := ("done"), updatedAt := ("t2") } :: post ∧
      (mark_task 1 ("done") ("t2") [sample_task 1 "todo"]).accesses =
        [Access.load, Access.save] :=
  C5_mark_status [sample_task 1 "todo"] 1 ("done") ("bogus") ("t2")
    (by decide) (by decide) (by decide)

/-- C6 (counterexample): with the empty-string filter on a one-task
collection, `list_tasks` returns the full collection — the truthiness test
`if status_filter:` treats the empty token as no filter — while the
subsequence of tasks whose status equals that filter is empty. -/
theorem C6_counterexample :
    (list_tasks (some ("")) [sample_task 1 "todo"]).result =
      TaskResult.listed [sample_task 1 "todo"] ∧
    List.filter (fun t => t.status = ("" : String)) [sample_task 1 "todo"] = [] ∧
    TaskResult.listed [sample_task 1 "todo"] ≠
      TaskResult.listed ([] : List Task) := by
  decide

/-- C6 (amended): for every non-empty filter string, listing returns exactly
the subsequence of tasks whose status equals the filter, in the original
order; with no filter — or with the empty-string filter, which the
truthiness test drops — listing returns the full collection unchanged. -/
theorem C6_list_filter (tasks : List Task) (f : String) (hf : f ≠ "") :
    (list_tasks (some f) tasks).result =
      TaskResult.listed (tasks.filter (fun t => t.status = f)) ∧
    List.Sublist (tasks.filter (fun t => t.status = f)) tasks ∧
    (∀ t ∈ tasks.filter (fun t => t.status = f), t.status = f) ∧
    (∀ t ∈ tasks, t.status = f → t ∈ tasks.filter (fun u => u.status = f)) ∧
    (list_tasks none tasks).result = TaskResult.listed tasks ∧
    (list_tasks (some ("")) tasks).result = TaskResult.listed tasks := by
  refine ⟨?_, List.filter_sublist _, ?_, ?_, ?_, ?_⟩
  · by_cases h : tasks = []
    · subst h
      simp [list_tasks]
    · have hg : filter_given (some f) = true := by simp [filter_given, hf]
      simp [list_tasks, h, hg]
  · intro t ht
    simpa using List.of_mem_filter ht
  · intro t ht hstat
    exact List.mem_filter.mpr ⟨ht, by simpa using hstat⟩
  · by_cases h : tasks = []
    · subst h
      simp [list_tasks]
    · simp [list_tasks, h, filter_given]
  · by_cases h : tasks = []
    · subst h
      simp [list_tasks]
    · have hg : filter_given (some ("")) = false := by simp [filter_given]
      simp [list_tasks, h, hg]

/-- C6 witness: the amended claim at the one-task todo collection with the
done filter. -/
theorem C6_list_filter_witness :
    (list_tasks (some ("done")) [sample_task 1 "todo"]).result =
      TaskResult.listed
        ([sample_task 1 "todo"].filter (fun t => t.status = ("done" : String))) ∧
    List.Sublist
      ([sample_task 1 "todo"].filter (fun t => t.status = ("done" : String)))
      [sample_task 1 "todo"] ∧
    (∀ t ∈ [sample_task 1 "todo"].filter (fun t => t.status = ("done" : String)),
      t.status = ("done" : String)) ∧
    (∀ t ∈ [sample_task 1 "todo"], t.status = ("done" : String) →
      t ∈ [sample_task 1 "todo"].filter (fun u => u.status = ("done" : String))) ∧
    (list_tasks none [sample_task 1 "todo"]).result =
      TaskResult.listed [sample_task 1 "todo"] ∧
    (list_tasks (some ("")) [sample_task 1 "todo"]).result =
      TaskResult.listed [sample_task 1 "todo"] :=
  C6_list_filter [sample_task 1 "todo"] ("done") (by decide)

/-- C7: listing never mutates and never persists — any number of repeated
`list_tasks` invocations, with or without filters, leaves the persisted
collection exactly as before, and no single listing ever issues a save. -/
theorem C7_list_pure_idempotent (tasks : List Task)
    (filters : List (Option String)) :
    list_many filters tasks = tasks ∧
    ∀ f : Option String, (list_tasks f tasks).tasks = tasks ∧
      Access.save ∉ (list_tasks f tasks).accesses := by
  constructor
  · induction filters with
    | nil => rfl
    | cons f fs ih =>
      have h1 : list_many (f :: fs) tasks =
          list_many fs (list_tasks f tasks).tasks := rfl
      rw [h1, (list_tasks_pure f tasks).1, ih]
  · intro f
    refine ⟨(list_tasks_pure f tasks).1, ?_⟩
    rw [(list_tasks_pure f tasks).2]
    simp

/-- C8 (counterexample): starting from a collection that already contains
two tasks with id 1, a single add with a non-empty description yields the
ids 1, 1, 2 — the resulting collection's ids are not unique, so the claim
fails for arbitrary starting collections. -/
theorem C8_counterexample :
    (∀ d ∈ [("X")], d ≠ ("" : String)) ∧
    ¬ ((add_many [("X")] ("t1")
        [sample_task 1 "todo", sample_task 1 "done"]).map Task.id).Nodup := by
  decide

/-- C8 (amended): along any sequence of adds with non-empty descriptions the
assigned ids are strictly increasing, one id per call; if additionally the
starting collection's ids are unique — as for every collection reachable
from the empty one — the ids of the resulting collection are unique. -/
theorem C8_add_ids_increasing (descs : List String) (now : String)
    (tasks : List Task) (hdescs : ∀ d ∈ descs, d ≠ "")
    (hnodup : (tasks.map Task.id).Nodup) :
    List.Pairwise (fun a b => a < b) (assigned_ids descs now tasks) ∧
    (assigned_ids descs now tasks).length = descs.length ∧
    ((add_many descs now tasks).map Task.id).Nodup :=
  ⟨assigned_ids_sorted descs now tasks,
   assigned_ids_length descs now tasks hdescs,
   add_many_nodup descs now tasks hnodup⟩

/-- C8 witness: two adds starting from the empty collection. -/
theorem C8_add_ids_increasing_witness :
    List.Pairwise (fun a b => a < b) (assigned_ids [("a"), ("b")] ("t1") []) ∧
    (assigned_ids [("a"), ("b")] ("t1") []).length = [("a"), ("b")].length ∧
    ((add_many [("a"), ("b")] ("t1") []).map Task.id).Nodup :=
  C8_add_ids_increasing [("a"), ("b")] ("t1") [] (by decide) (by decide)

/-- C9: updating a present id with a non-empty description rewrites exactly
the first matching task, replacing only its description and `updatedAt` —
its id, `createdAt` and status are untouched — while every other task and
the collection's order are unchanged, and the change is saved. -/
theorem C9_update_frame (tasks : List Task) (i : Int) (d now : String)
    (hmem : ∃ t ∈ tasks, t.id = i) (hd : d ≠ "") :
    ∃ pre t post,
      tasks = pre ++ t :: post ∧ (∀ u ∈ pre, u.id ≠ i) ∧ t.id = i ∧
      (update_task i d now tasks).result =
        TaskResult.updated { t with description := d, updatedAt := now } ∧
      (update_task i d now tasks).tasks =
        pre ++ { t with description := d, updatedAt := now } :: post ∧
      ({ t with description := d, updatedAt := now } : Task).id = t.id ∧
      ({ t with description := d, updatedAt := now } : Task).createdAt =
        t.createdAt ∧
      ({ t with description := d, updatedAt := now } : Task).status = t.status ∧
      (update_task i d now tasks).accesses = [Access.load, Access.save] := by
  rcases exists_first_match hmem with ⟨pre, t, post, heq, hpre, hti⟩
  subst heq
  have hm := modify_first_split i
    (fun u => { u with description := d, updatedAt := now }) pre post t hpre hti
  exact ⟨pre, t, post, rfl, hpre, hti,
    by simp [update_task, hd, hm], by simp [update_task, hd, hm],
    rfl, rfl, rfl, by simp [update_task, hd, hm]⟩

/-- C9 witness: updating the only task of a one-task collection. -/
theorem C9_update_frame_witness :
    ∃ pre t post,
      [sample_task 1 "todo"] = pre ++ t :: post ∧ (∀ u ∈ pre, u.id ≠ 1) ∧
      t.id = 1 ∧
      (update_task 1 ("new text") ("t3") [sample_task 1 "todo"]).result =
        TaskResult.updated
          { t with description := ("new text"), updatedAt := ("t3") } ∧
      (update_task 1 ("new text") ("t3") [sample_task 1 "todo"]).tasks =
        pre ++ { t with description := ("new text"), updatedAt := ("t3") } :: post ∧
      ({ t with description := ("new text"), updatedAt := ("t3") } : Task).id =
        t.id ∧
      ({ t with description := ("new text"), updatedAt := ("t3") } : Task).createdAt =
        t.createdAt ∧
      ({ t with description := ("new text"), updatedAt := ("t3") } : Task).status =
        t.status ∧
      (update_task 1 ("new text") ("t3") [sample_task 1 "todo"]).accesses =
        [Access.load, Access.save] :=
  C9_update_frame [sample_task 1 "todo"] 1 ("new text") ("t3")
    (by decide) (by decide)

/-- The dispatcher's list branch: the list verb with any argument list calls
`list_tasks` on the optional first token. -/
theorem main_dispatch_list (rest : List String) (now : String)
    (tasks : List Task) :
    main_dispatch (("list") :: rest) now tasks =
      MainResult.ofOp (list_tasks rest.head? tasks) := by
  have h1 : ¬(("list" : String) = "add" ∧ 1 ≤ rest.length) := by
    rintro ⟨h, -⟩
    exact absurd h (by decide)
  have h2 : ¬(("list" : String) = "update" ∧ 2 ≤ rest.length) := by
    rintro ⟨h, -⟩
    exact absurd h (by decide)
  have h3 : ¬(("list" : String) = "delete" ∧ 1 ≤ rest.length) := by
    rintro ⟨h, -⟩
    exact absurd h (by decide)
  have h4 : ¬(("list" : String) = "mark" ∧ 2 ≤ rest.length) := by
    rintro ⟨h, -⟩
    exact absurd h (by decide)
  simp [main_dispatch, h1, h2, h3, h4]

/-- C10 (counterexample): the empty string lies outside the three valid
statuses, yet the dispatcher's list verb applied to it on a one-task
collection returns the full collection, not the empty sequence — the empty
token is dropped by the truthiness test rather than filtered on. -/
theorem C10_counterexample :
    ("" : String) ∉ valid_statuses ∧
    (main_dispatch [("list"), ("")] ("t1") [sample_task 1 "todo"]).out =
      MainOut.fromOp (TaskResult.listed [sample_task 1 "todo"]) ∧
    TaskResult.listed [sample_task 1 "todo"] ≠
      TaskResult.listed ([] : List Task) := by
  decide

/-- C10 (amended): listing never validates its filter and never errors —
for every filter the outcome is a listing, never a validation or
argument-style error; and for every non-empty filter string outside the
three valid statuses, on a collection whose tasks all carry valid statuses
(as the store maintains), both `list_tasks` and the dispatcher's list verb
return the empty sequence of tasks, leaving the collection unchanged. -/
theorem C10_list_no_validation (tasks : List Task) (f now : String)
    (hval : f ∉ valid_statuses) (hne : f ≠ "")
    (hstat : ∀ t ∈ tasks, t.status ∈ valid_statuses) :
    (list_tasks (some f) tasks).result = TaskResult.listed [] ∧
    (main_dispatch [("list"), f] now tasks).out =
      MainOut.fromOp (TaskResult.listed []) ∧
    (main_dispatch [("list"), f] now tasks).tasks = tasks ∧
    ∀ g : Option String, (list_tasks g tasks).result.isError = false := by
  have hfil : tasks.filter (fun t => t.status = f) = [] := by
    refine List.filter_eq_nil_iff.mpr ?_
    intro t ht
    have h2 := hstat t ht
    simp only [decide_eq_true_eq]
    intro h3
    rw [h3] at h2
    exact hval h2
  have hres : (list_tasks (some f) tasks).result = TaskResult.listed [] := by
    by_cases h : tasks = []
    · subst h
      simp [list_tasks]
    · have hg : filter_given (some f) = true := by simp [filter_given, hne]
      simp [list_tasks, h, hg, hfil]
  refine ⟨hres, ?_, ?_, ?_⟩
  · rw [main_dispatch_list [f] now tasks]
    simp only [MainResult.ofOp, List.head?]
    rw [hres]
  · rw [main_dispatch_list [f] now tasks]
    simp only [MainResult.ofOp, List.head?]
    exact (list_tasks_pure _ tasks).1
  · intro g
    by_cases h : tasks = []
    · simp [list_tasks, h, TaskResult.isError]
    · by_cases h2 : filter_given g = true <;>
        simp [list_tasks, h, h2, TaskResult.isError]

/-- C10 witness: the amended claim for the bogus filter on the one-task todo
collection. -/
theorem C10_list_no_validation_witness :
    (list_tasks (some ("bogus")) [sample_task 1 "todo"]).result =
      TaskResult.listed [] ∧
    (main_dispatch [("list"), ("bogus")] ("t1") [sample_task 1 "todo"]).out =
      MainOut.fromOp (TaskResult.listed []) ∧
    (main_dispatch [("list"), ("bogus")] ("t1") [sample_task 1 "todo"]).tasks =
      [sample_task 1 "todo"] ∧
    ∀ g : Option String,
      (list_tasks g [sample_task 1 "todo"]).result.isError = false :=
  C10_list_no_validation [sample_task 1 "todo"] ("bogus") ("t1")
    (by decide) (by decide) (by decide)

end TasksCli
